import Mathlib

/-!
Shallow embedding of `main.py` of the flat-crawler repository.

The program is a single-file scraper: it loads a JSON list of already-seen
ad ids (`load_seen_ads`), scrapes two sites into lists of ad dictionaries
(`scrape_njuskalo`, `scrape_index_oglasi`), concatenates them, partitions
them into new vs seen by membership in the seen list (`main`, the
`for ad in all_ads` loop), notifies for each new ad in reversed order
(`send_telegram_notification`), and saves the seen list (`save_seen_ads`)
only when at least one new ad was found.

Python dictionaries `{"id": ..., "title": ..., "price": ..., "link": ...}`
become the structure `Ad`; the filesystem state of `seen_ads.json` becomes
the inductive `FileContent`; logging and HTTP delivery become explicit
event lists.
-/

namespace FlatCrawler

/-- One ad record, the dictionary built by the scrapers:
`{"id": ..., "title": ..., "price": ..., "link": ...}`. -/
structure Ad where
  id : String
  title : String
  price : String
  link : String
deriving DecidableEq, Repr

/-- The state of the persisted file `seen_ads.json`:
absent, present with content that fails `json.load` (carrying the raw text),
or present with a JSON array of strings. -/
inductive FileContent where
  | absent : FileContent
  | corrupt (raw : String) : FileContent
  | valid (ids : List String) : FileContent
deriving DecidableEq, Repr

/-- Result of `load_seen_ads()`: the returned list, the file state it leaves
behind, and whether the corrupt-content warning was logged. -/
structure LoadResult where
  ids : List String
  fs : FileContent
  warned : Bool
deriving DecidableEq, Repr

/-- Embedding of `load_seen_ads` (main.py lines 35-50): if the file does not exist, create
it containing the empty JSON array and return `[]`; otherwise `json.load` it,
catching `JSONDecodeError` by logging a warning and returning `[]`. -/
def load_seen_ads : FileContent → LoadResult
  | FileContent.absent => { ids := [], fs := FileContent.valid [], warned := false }
  | FileContent.corrupt raw => { ids := [], fs := FileContent.corrupt raw, warned := true }
  | FileContent.valid l => { ids := l, fs := FileContent.valid l, warned := false }

/-- The reconciliation loop of `main` (main.py lines 298-302):

    for ad in all_ads:
        if ad["id"] not in seen_ads:
            all_new_ads.append(ad)
            seen_ads.append(ad["id"])

Returns `(all_new_ads, seen_ads)` after the loop. -/
def processAds : List Ad → List String → List Ad × List String
  | [], seen => ([], seen)
  | ad :: rest, seen =>
    if ad.id ∈ seen then
      processAds rest seen
    else
      let r := processAds rest (seen ++ [ad.id])
      (ad :: r.1, r.2)

/-- Unfolding lemma: a candidate whose id is already seen is discarded. -/
theorem processAds_cons_seen {ad : Ad} {seen : List String} (rest : List Ad)
    (h : ad.id ∈ seen) : processAds (ad :: rest) seen = processAds rest seen := by
  simp [processAds, h]

/-- Unfolding lemma: a candidate whose id is not yet seen is appended to the
new records and its id appended to the seen list. -/
theorem processAds_cons_new {ad : Ad} {seen : List String} (rest : List Ad)
    (h : ad.id ∉ seen) :
    processAds (ad :: rest) seen =
      (ad :: (processAds rest (seen ++ [ad.id])).1,
        (processAds rest (seen ++ [ad.id])).2) := by
  simp [processAds, h]

/-- The seen list after the loop is the input list with the ids of the new
records appended, in discovery order. -/
theorem processAds_seen_eq (ads : List Ad) (seen : List String) :
    (processAds ads seen).2 = seen ++ (processAds ads seen).1.map Ad.id := by
  induction ads generalizing seen with
  | nil => simp [processAds]
  | cons ad rest ih =>
    by_cases h : ad.id ∈ seen
    · rw [processAds_cons_seen rest h]
      exact ih seen
    · rw [processAds_cons_new rest h]
      simp [ih (seen ++ [ad.id])]

/-- The ids of the new records are pairwise distinct and disjoint from the
initial seen list. -/
theorem processAds_nodup_disjoint (ads : List Ad) (seen : List String) :
    ((processAds ads seen).1.map Ad.id).Nodup ∧
      ∀ r ∈ (processAds ads seen).1, r.id ∉ seen := by
  induction ads generalizing seen with
  | nil => simp [processAds]
  | cons ad rest ih =>
    by_cases h : ad.id ∈ seen
    · rw [processAds_cons_seen rest h]
      exact ih seen
    · obtain ⟨hnd, hdis⟩ := ih (seen ++ [ad.id])
      rw [processAds_cons_new rest h]
      refine ⟨?_, ?_⟩
      · simp only [List.map_cons, List.nodup_cons]
        refine ⟨?_, hnd⟩
        intro hmem
        obtain ⟨r, hr, hrid⟩ := List.mem_map.mp hmem
        exact hdis r hr (by simp [hrid])
      · intro r hr
        simp only [List.mem_cons] at hr
        rcases hr with rfl | hr
        · exact h
        · intro hs
          exact hdis r hr (by simp [hs])

/-- Every record in `all_new_ads` is the first candidate in the input stream
bearing its id. -/
theorem processAds_first_occurrence (ads : List Ad) (seen : List String) :
    ∀ r ∈ (processAds ads seen).1, ads.find? (fun a => a.id == r.id) = some r := by
  induction ads generalizing seen with
  | nil => simp [processAds]
  | cons ad rest ih =>
    by_cases h : ad.id ∈ seen
    · intro r hr
      rw [processAds_cons_seen rest h] at hr
      have hne : r.id ∉ seen := (processAds_nodup_disjoint rest seen).2 r hr
      have hadr : ¬ ((ad.id == r.id) = true) := by
        simp only [beq_iff_eq]
        intro hEq
        exact hne (hEq ▸ h)
      exact (@List.find?_cons_of_neg _ (fun a => a.id == r.id) ad rest hadr).trans
        (ih seen r hr)
    · intro r hr
      rw [processAds_cons_new rest h] at hr
      simp only [List.mem_cons] at hr
      rcases hr with rfl | hr
      · exact @List.find?_cons_of_pos _ (fun a => a.id == r.id) r rest (by simp)
      · have hne : r.id ∉ seen ++ [ad.id] :=
          (processAds_nodup_disjoint rest (seen ++ [ad.id])).2 r hr
        have hadr : ¬ ((ad.id == r.id) = true) := by
          simp only [beq_iff_eq]
          intro hEq
          exact hne (by simp [hEq])
        exact (@List.find?_cons_of_neg _ (fun a => a.id == r.id) ad rest hadr).trans
          (ih (seen ++ [ad.id]) r hr)

/-- Observable events of the notification phase: the HTTP POST to the
Telegram API (`requests.post`, one per call that reaches it), the success
info log, the `RequestException` error log, and the warning emitted when the
credentials are missing. -/
inductive Event where
  | attempt (id : String) : Event
  | success (id : String) : Event
  | errorLogged (id : String) : Event
  | credsWarning : Event
deriving DecidableEq, Repr

/-- Embedding of `send_telegram_notification` (main.py lines 58-83): with missing
credentials it logs a warning and returns without any attempt; otherwise it
POSTs once, logging success on a 2xx response and logging the error on a
`RequestException` (raised by the POST or by `raise_for_status`).
`outcome id = true` models a successful delivery for that record. -/
def send_telegram_notification (creds : Bool) (outcome : String → Bool)
    (ad : Ad) : List Event :=
  if !creds then [Event.credsWarning]
  else if outcome ad.id then [Event.attempt ad.id, Event.success ad.id]
  else [Event.attempt ad.id, Event.errorLogged ad.id]

/-- The notification loop body of `main` applied to a list of ads in the
order iterated: each iteration calls `send_telegram_notification` and keeps
going regardless of the per-record outcome (the exception is caught inside
`send_telegram_notification`). -/
def notifyLoop (creds : Bool) (outcome : String → Bool) : List Ad → List Event
  | [] => []
  | ad :: rest =>
      send_telegram_notification creds outcome ad ++ notifyLoop creds outcome rest

/-- The notification phase of `main` (main.py line 307):
`for ad in reversed(all_new_ads): send_telegram_notification(ad)`. -/
def notifyBatch (creds : Bool) (outcome : String → Bool) (newAds : List Ad) :
    List Event :=
  notifyLoop creds outcome newAds.reverse

/-- The ids of the delivery attempts in an event trace, in order. -/
def attemptsOf : List Event → List String
  | [] => []
  | Event.attempt i :: t => i :: attemptsOf t
  | Event.success _ :: t => attemptsOf t
  | Event.errorLogged _ :: t => attemptsOf t
  | Event.credsWarning :: t => attemptsOf t

theorem attemptsOf_append (xs ys : List Event) :
    attemptsOf (xs ++ ys) = attemptsOf xs ++ attemptsOf ys := by
  induction xs with
  | nil => rfl
  | cons e t ih => cases e <;> simp [attemptsOf, ih]

/-- With credentials present, the notification loop attempts delivery exactly
once per ad, in iteration order, whatever the transport outcomes are. -/
theorem attemptsOf_notifyLoop (outcome : String → Bool) (l : List Ad) :
    attemptsOf (notifyLoop true outcome l) = l.map Ad.id := by
  induction l with
  | nil => rfl
  | cons ad rest ih =>
    rw [notifyLoop, attemptsOf_append, ih]
    by_cases h : outcome ad.id = true
    · simp [send_telegram_notification, h, attemptsOf]
    · simp only [Bool.not_eq_true] at h
      simp [send_telegram_notification, h, attemptsOf]

/-- A failed delivery leaves its error log in the loop's event trace. -/
theorem errorLogged_mem_notifyLoop (outcome : String → Bool) (l : List Ad)
    (ad : Ad) (hmem : ad ∈ l) (hfail : outcome ad.id = false) :
    Event.errorLogged ad.id ∈ notifyLoop true outcome l := by
  induction l with
  | nil => cases hmem
  | cons b rest ih =>
    rw [notifyLoop]
    rcases List.mem_cons.mp hmem with rfl | hmem
    · simp [send_telegram_notification, hfail]
    · exact List.mem_append_right _ (ih hmem)

/-- Outcome of `save_seen_ads(ad_ids)` (main.py lines 52-56), modelled with
the file contents a concurrent reader could observe at each step:
`open(SEEN_ADS_FILE, "w")` truncates the file to the empty string (which is
not valid JSON), then `json.dump` writes the array. `writeOk = false` models
a failure of the write: the exception propagates to the caller (there is no
try/except in `save_seen_ads`) and the function logs nothing — its only log
line is the success message after the dump. -/
structure SaveOutcome where
  obs : List FileContent
  infoLogged : Bool
  raised : Bool
  errorLogged : Bool
deriving DecidableEq, Repr

/-- Embedding of `save_seen_ads` (main.py lines 52-56). -/
def save_seen_ads (writeOk : Bool) (ids : List String) : SaveOutcome :=
  if writeOk then
    { obs := [FileContent.corrupt "", FileContent.valid ids],
      infoLogged := true, raised := false, errorLogged := false }
  else
    { obs := [FileContent.corrupt ""],
      infoLogged := false, raised := true, errorLogged := false }

/-- A save is atomic with respect to readers when every observable state of
the file during the save is either the old content or the new content. -/
def atomicForReaders (old new : FileContent) (obs : List FileContent) : Prop :=
  ∀ o ∈ obs, o = old ∨ o = new

instance (old new : FileContent) (obs : List FileContent) :
    Decidable (atomicForReaders old new obs) :=
  List.decidableBAll _ obs

/-- Result of one run of `main` (main.py lines 269-316): the notification
event trace, the final state of `seen_ads.json`, and whether
`save_seen_ads` was invoked. -/
structure RunResult where
  events : List Event
  fs : FileContent
  savedInvoked : Bool
deriving DecidableEq, Repr

/-- The pipeline of `main` (main.py lines 269-316) given the two adapters'
results as inputs: early return when credentials are missing; otherwise load
the seen list, concatenate `njuskalo_ads ++ index_ads`, run the
reconciliation loop, and — only when new ads exist — notify over the
reversed new list and save the updated seen list. -/
def mainRun (creds : Bool) (outcome : String → Bool)
    (njuskaloAds indexAds : List Ad) (fs0 : FileContent) : RunResult :=
  if !creds then { events := [], fs := fs0, savedInvoked := false }
  else
    let L := load_seen_ads fs0
    let p := processAds (njuskaloAds ++ indexAds) L.ids
    if p.1 = [] then { events := [], fs := L.fs, savedInvoked := false }
    else
      { events := notifyBatch true outcome p.1,
        fs := FileContent.valid p.2, savedInvoked := true }

/-- An id is among the new records exactly when it occurs in the candidate
stream and is not in the initial seen list. -/
theorem mem_processAds_new (ads : List Ad) (seen : List String) (x : String) :
    x ∈ (processAds ads seen).1.map Ad.id ↔ x ∈ ads.map Ad.id ∧ x ∉ seen := by
  induction ads generalizing seen with
  | nil => simp [processAds]
  | cons ad rest ih =>
    by_cases h : ad.id ∈ seen
    · rw [processAds_cons_seen rest h, ih]
      simp only [List.map_cons, List.mem_cons]
      constructor
      · rintro ⟨hx, hxs⟩
        exact ⟨Or.inr hx, hxs⟩
      · rintro ⟨hx | hx, hxs⟩
        · exact absurd (hx ▸ h) hxs
        · exact ⟨hx, hxs⟩
    · rw [processAds_cons_new rest h]
      simp only [List.map_cons, List.mem_cons]
      rw [ih]
      constructor
      · rintro (rfl | ⟨hx, hxs⟩)
        · exact ⟨Or.inl rfl, h⟩
        · simp only [List.mem_append, List.mem_singleton, not_or] at hxs
          exact ⟨Or.inr hx, hxs.1⟩
      · rintro ⟨hx | hx, hxs⟩
        · exact Or.inl hx
        · by_cases hxa : x = ad.id
          · exact Or.inl hxa
          · exact Or.inr ⟨hx, by simp [hxs, hxa]⟩

/-- Python substring test `pat in s` on the character lists. -/
def hasSub (pat : List Char) : List Char → Bool
  | [] => pat.isEmpty
  | c :: t => pat.isPrefixOf (c :: t) || hasSub pat t

/-- Python substring test `pat in s` on strings. -/
def strContains (s pat : String) : Bool :=
  hasSub pat.toList s.toList

/-- Maximal run of digits at the head of the list (the greedy digit group of
the regex). -/
def leadingDigits : List Char → List Char
  | [] => []
  | c :: t => if c.isDigit then c :: leadingDigits t else []

/-- Characters of the literal part of the Njuškalo id regex. -/
def oglasPat : List Char := "-oglas-".toList

/-- Embedding of `re.search` for the Njuškalo id pattern (main.py line 126):
scan for the first position where `-oglas-` is followed by at least one
digit, and return that digit group. -/
def findOglasId : List Char → Option String
  | [] => none
  | c :: t =>
    if oglasPat.isPrefixOf (c :: t) then
      let ds := leadingDigits ((c :: t).drop oglasPat.length)
      if ds.isEmpty then findOglasId t else some ds.asString
    else findOglasId t

/-- Python `s.strip()`: drop whitespace from both ends. -/
def pyStrip (s : String) : String :=
  (((s.toList.dropWhile Char.isWhitespace).reverse.dropWhile
      Char.isWhitespace).reverse).asString

/-- Python `s.startswith(pre)`. -/
def pyStartsWith (s pre : String) : Bool :=
  pre.toList.isPrefixOf s.toList

/-- Python `s.split("/")` on the character list. -/
def splitSlash : List Char → List (List Char)
  | [] => [[]]
  | c :: t =>
    let r := splitSlash t
    if c == '/' then [] :: r
    else
      match r with
      | [] => [[c]]
      | x :: xs => (c :: x) :: xs

/-- Python `s.rstrip("/")` (main.py line 228). -/
def rstripSlash (s : String) : String :=
  ((s.toList.reverse.dropWhile fun c => c == '/').reverse).asString

/-- Python `s.isdigit()` restricted to ASCII digits: nonempty and all
digits. -/
def isDigits (s : String) : Bool :=
  !s.toList.isEmpty && s.toList.all Char.isDigit

/-- Python `s.split("/")[-1]`; the split list is never empty, so the default
is never used. -/
def lastSegment (s : String) : String :=
  ((splitSlash s.toList).getLastD []).asString

/-- The title anchor of a Njuškalo item: its inner text and its optional
href attribute. -/
structure TitleEl where
  text : String
  href : Option String
deriving DecidableEq, Repr

/-- One `.EntityList-item` container on Njuškalo, reduced to the fields the
per-item code reads: the data-href and data-id attributes, the optional
title anchor, and the optional price and description element texts. -/
structure NjuskaloItem where
  dataHref : Option String
  dataId : Option String
  titleEl : Option TitleEl
  priceText : Option String
  descText : Option String
deriving DecidableEq, Repr

/-- One ad anchor on Index Oglasi, reduced to the fields the per-item code
reads: its href attribute and the optional title, price and location
sub-element texts. -/
structure IndexItem where
  href : Option String
  titleText : Option String
  priceText : Option String
  locationText : Option String
deriving DecidableEq, Repr

/-- Outcome of one iteration of a scraper loop: skip the container
(`continue`), append a record, or raise — a raise aborts the whole loop and
is caught at the adapter boundary. -/
inductive ItemStep where
  | skip : ItemStep
  | emit (ad : Ad) : ItemStep
  | err : ItemStep
deriving DecidableEq, Repr

/-- Replace the price of an emitted record; identity on skip and err. -/
def priceSubst (s : String) : ItemStep → ItemStep
  | ItemStep.emit ad => ItemStep.emit { ad with price := s }
  | x => x

/-- Per-item body of `scrape_njuskalo` (main.py lines 118-165): skip on a
falsy data-href; extract the id from data-href by the regex, falling back to
a truthy data-id, else skip; title and link come from the title anchor and
default to the string sentinel when the anchor is absent; skip when title or
link equals the sentinel; `err` models the `TypeError` raised when the
anchor exists but has no href so `link` is `None` at the substring check;
skip non-apartment links and descriptions without the neighborhood; price
defaults to the sentinel and never causes a skip. -/
def processNjuskaloItem (it : NjuskaloItem) : ItemStep :=
  match it.dataHref with
  | none => ItemStep.skip
  | some dh =>
    if dh.toList.isEmpty then ItemStep.skip
    else
      let adIdM : Option String :=
        match findOglasId dh.toList with
        | some i => some i
        | none =>
          match it.dataId with
          | none => none
          | some i => if i.toList.isEmpty then none else some i
      match adIdM with
      | none => ItemStep.skip
      | some adId =>
        let title : String :=
          match it.titleEl with
          | some t => pyStrip t.text
          | none => "N/A"
        let link : Option String :=
          match it.titleEl with
          | some t => t.href
          | none => some "N/A"
        let description : String :=
          match it.descText with
          | some d => pyStrip d
          | none => ""
        if title = "N/A" ∨ link = some "N/A" then ItemStep.skip
        else
          match link with
          | none => ItemStep.err
          | some l =>
            if !strContains l "/nekretnine" then ItemStep.skip
            else if !strContains description "Trešnjevka" then ItemStep.skip
            else
              let fullLink :=
                if pyStartsWith l "/" then "https://www.njuskalo.hr" ++ l else l
              let price : String :=
                match it.priceText with
                | some p => pyStrip p
                | none => "N/A"
              ItemStep.emit
                { id := "njuskalo-" ++ adId, title := title,
                  price := price, link := fullLink }

/-- Per-item body of `scrape_index_oglasi` (main.py lines 216-258): skip on
a falsy href or one without the ads path; take the last path segment as id,
retrying after stripping trailing slashes, else skip; title, price and
location default to the string sentinel; skip when title and price are both
the sentinel; skip locations without the neighborhood. -/
def processIndexItem (it : IndexItem) : ItemStep :=
  match it.href with
  | none => ItemStep.skip
  | some l =>
    if l.toList.isEmpty || !strContains l "/oglasi/" then ItemStep.skip
    else
      let firstTry := lastSegment l
      let adIdM : Option String :=
        if isDigits firstTry then some firstTry
        else
          let seg := lastSegment (rstripSlash l)
          if isDigits seg then some seg else none
      match adIdM with
      | none => ItemStep.skip
      | some adId =>
        let title : String :=
          match it.titleText with
          | some t => pyStrip t
          | none => "N/A"
        let price : String :=
          match it.priceText with
          | some p => pyStrip p
          | none => "N/A"
        let location : String :=
          match it.locationText with
          | some x => pyStrip x
          | none => "N/A"
        if title = "N/A" ∧ price = "N/A" then ItemStep.skip
        else if !strContains location "Trešnjevka" then ItemStep.skip
        else
          ItemStep.emit
            { id := "index-" ++ adId, title := title, price := price,
              link := if pyStartsWith l "http" then l
                      else "https://www.index.hr" ++ l }

/-- Concrete ad used in witnesses. -/
def adA : Ad :=
  { id := "njuskalo-1", title := "Stan A", price := "500 €",
    link := "https://www.njuskalo.hr/nekretnine/a-oglas-1" }

/-- Concrete ad used in witnesses, same identity as `adA`. -/
def adA2 : Ad :=
  { id := "njuskalo-1", title := "Stan A again", price := "500 €",
    link := "https://www.njuskalo.hr/nekretnine/a-oglas-1" }

/-- Concrete ad used in witnesses. -/
def adB : Ad :=
  { id := "index-9", title := "Stan B", price := "450 €",
    link := "https://www.index.hr/oglasi/nekretnine/najam-stanova/oglas/9" }

/-- Transport outcome used in witnesses: delivery fails for every id except
`index-9`. -/
def outcomeFailFirst : String → Bool := fun s => s == "index-9"

/-- C1: for every candidate sequence and initial seen list, each identity
appears in `all_new_ads` at most once — the ids of the new records are
pairwise distinct — no new record's id was already seen, and every new
record is the first occurrence of its id in the input stream, so every later
occurrence was discarded. -/
theorem claim_C1_at_most_once (ads : List Ad) (seen : List String) :
    ((processAds ads seen).1.map Ad.id).Nodup ∧
      ∀ r ∈ (processAds ads seen).1,
        r.id ∉ seen ∧ ads.find? (fun a => a.id == r.id) = some r := by
  obtain ⟨hnd, hdis⟩ := processAds_nodup_disjoint ads seen
  exact ⟨hnd, fun r hr =>
    ⟨hdis r hr, processAds_first_occurrence ads seen r hr⟩⟩

/-- Witness for C1 on a stream that repeats `njuskalo-1`. -/
theorem claim_C1_at_most_once_witness :
    [adA, adB, adA2].find? (fun a => a.id == adB.id) = some adB :=
  ((claim_C1_at_most_once [adA, adB, adA2] ["index-7"]).2 adB (by decide)).2

/-- C2: when every candidate's id is already in the seen list, reconciliation
yields zero new records and returns the seen list unchanged. -/
theorem claim_C2_idempotence (ads : List Ad) (seen : List String)
    (h : ∀ a ∈ ads, a.id ∈ seen) : processAds ads seen = ([], seen) := by
  induction ads with
  | nil => rfl
  | cons ad rest ih =>
    have had : ad.id ∈ seen := h ad (List.mem_cons_self ad rest)
    rw [processAds_cons_seen rest had]
    exact ih fun a ha => h a (List.mem_cons_of_mem ad ha)

/-- Witness for C2 on a fully-seen candidate list. -/
theorem claim_C2_idempotence_witness :
    processAds [adA, adB] ["index-9", "njuskalo-1"] = ([], ["index-9", "njuskalo-1"]) :=
  claim_C2_idempotence [adA, adB] ["index-9", "njuskalo-1"] (by decide)

/-- C3: with credentials present, the notification phase makes exactly one
delivery attempt per new record, and the attempted ids are exactly the new
records' ids in reverse append order (oldest-discovered first), whatever the
per-record transport outcomes are. -/
theorem claim_C3_delivery_order (outcome : String → Bool) (newAds : List Ad) :
    attemptsOf (notifyBatch true outcome newAds) = (newAds.map Ad.id).reverse := by
  rw [notifyBatch, attemptsOf_notifyLoop, List.map_reverse]

/-- C4: the load operation is a total function of the file state (the only
exception the parse can raise is caught inside it): on a missing file it
returns the empty list, and on malformed content it returns the empty list
and logs the warning. -/
theorem claim_C4_load_never_fails :
    (load_seen_ads FileContent.absent).ids = [] ∧
      ∀ raw : String, (load_seen_ads (FileContent.corrupt raw)).ids = [] ∧
        (load_seen_ads (FileContent.corrupt raw)).warned = true :=
  ⟨rfl, fun _ => ⟨rfl, rfl⟩⟩

/-- C5 as stated is false: on a run with zero new records and an initially
absent state file, `save_seen_ads` is indeed never invoked, but the state
file is not left untouched — `load_seen_ads` already created it. -/
theorem claim_C5_counterexample :
    (mainRun true (fun _ => true) [] [] FileContent.absent).savedInvoked = false ∧
      (mainRun true (fun _ => true) [] [] FileContent.absent).fs ≠
        FileContent.absent := by
  decide

/-- C5 (amended): on every run whose reconciliation yields zero new records,
`save_seen_ads` is never invoked and the state file keeps the state the load
phase left it in (unchanged from run start, except that a missing file was
created empty by the load). -/
theorem claim_C5_noop_persistence (outcome : String → Bool) (nj ix : List Ad)
    (fs0 : FileContent)
    (h : (processAds (nj ++ ix) (load_seen_ads fs0).ids).1 = []) :
    (mainRun true outcome nj ix fs0).savedInvoked = false ∧
      (mainRun true outcome nj ix fs0).fs = (load_seen_ads fs0).fs := by
  simp [mainRun, h]

/-- Witness for amended C5 on a repeat run with an existing state file. -/
theorem claim_C5_noop_persistence_witness :
    (mainRun true (fun _ => true) [adA] [] (FileContent.valid ["njuskalo-1"])).savedInvoked
        = false ∧
      (mainRun true (fun _ => true) [adA] [] (FileContent.valid ["njuskalo-1"])).fs
        = FileContent.valid ["njuskalo-1"] :=
  claim_C5_noop_persistence (fun _ => true) [adA] [] (FileContent.valid ["njuskalo-1"])
    (by decide)

/-- C6: on a run that found new records, a transport failure for one record
is logged and does not abort the batch — every new record still gets its
delivery attempt (in reverse discovery order), every new record's id is in
the final seen list, and the seen list — failed deliveries included — is
persisted. -/
theorem claim_C6_failure_isolated (outcome : String → Bool) (nj ix : List Ad)
    (fs0 : FileContent)
    (h : (processAds (nj ++ ix) (load_seen_ads fs0).ids).1 ≠ []) :
    (mainRun true outcome nj ix fs0).savedInvoked = true ∧
      (mainRun true outcome nj ix fs0).fs =
        FileContent.valid (processAds (nj ++ ix) (load_seen_ads fs0).ids).2 ∧
      attemptsOf (mainRun true outcome nj ix fs0).events =
        ((processAds (nj ++ ix) (load_seen_ads fs0).ids).1.map Ad.id).reverse ∧
      ∀ ad ∈ (processAds (nj ++ ix) (load_seen_ads fs0).ids).1,
        ad.id ∈ (processAds (nj ++ ix) (load_seen_ads fs0).ids).2 ∧
          (outcome ad.id = false →
            Event.errorLogged ad.id ∈ (mainRun true outcome nj ix fs0).events) := by
  have hmain : mainRun true outcome nj ix fs0 =
      { events :=
          notifyBatch true outcome (processAds (nj ++ ix) (load_seen_ads fs0).ids).1,
        fs := FileContent.valid (processAds (nj ++ ix) (load_seen_ads fs0).ids).2,
        savedInvoked := true } := by
    simp [mainRun, h]
  rw [hmain]
  refine ⟨rfl, rfl, ?_, ?_⟩
  · rw [notifyBatch, attemptsOf_notifyLoop, List.map_reverse]
  · intro ad had
    refine ⟨?_, ?_⟩
    · rw [processAds_seen_eq]
      exact List.mem_append_right _ (List.mem_map_of_mem _ had)
    · intro hfail
      exact errorLogged_mem_notifyLoop outcome _ ad (List.mem_reverse.mpr had) hfail

/-- Witness for C6: two new ads, the transport fails for `njuskalo-1` and
succeeds for `index-9`; the run still saves, and the failure was logged. -/
theorem claim_C6_failure_isolated_witness :
    (mainRun true outcomeFailFirst [adA] [adB] (FileContent.valid [])).savedInvoked
        = true ∧
      Event.errorLogged "njuskalo-1" ∈
        (mainRun true outcomeFailFirst [adA] [adB] (FileContent.valid [])).events := by
  have hth := claim_C6_failure_isolated outcomeFailFirst [adA] [adB]
    (FileContent.valid []) (by decide)
  exact ⟨hth.1, (hth.2.2.2 adA (by decide)).2 (by decide)⟩

/-- C7: swapping the order in which the two adapters' results are
concatenated changes neither which identities are classified as new nor the
final seen list viewed as a set of identities. -/
theorem claim_C7_adapter_order (l1 l2 : List Ad) (seen : List String)
    (x : String) :
    (x ∈ (processAds (l1 ++ l2) seen).1.map Ad.id ↔
        x ∈ (processAds (l2 ++ l1) seen).1.map Ad.id) ∧
      (x ∈ (processAds (l1 ++ l2) seen).2 ↔
        x ∈ (processAds (l2 ++ l1) seen).2) := by
  have h12 := mem_processAds_new (l1 ++ l2) seen x
  have h21 := mem_processAds_new (l2 ++ l1) seen x
  constructor
  · rw [h12, h21]
    simp only [List.map_append, List.mem_append]
    tauto
  · rw [processAds_seen_eq, processAds_seen_eq]
    simp only [List.mem_append]
    rw [h12, h21]
    simp only [List.map_append, List.mem_append]
    tauto

/-- Witness for C7 at a concrete pair of adapter results. -/
theorem claim_C7_adapter_order_witness :
    ("index-9" ∈ (processAds ([adA] ++ [adB]) ["x"]).1.map Ad.id ↔
        "index-9" ∈ (processAds ([adB] ++ [adA]) ["x"]).1.map Ad.id) ∧
      ("index-9" ∈ (processAds ([adA] ++ [adB]) ["x"]).2 ↔
        "index-9" ∈ (processAds ([adB] ++ [adA]) ["x"]).2) :=
  claim_C7_adapter_order [adA] [adB] ["x"] "index-9"

/-- C8 as stated is false: the save rewrites the file in place, so a reader
between the truncating `open` and the `json.dump` observes an empty
(malformed) file that is neither the old nor the new content; moreover a
write failure propagates as an uncaught exception without any error log from
the store. -/
theorem claim_C8_counterexample :
    ¬ atomicForReaders (FileContent.valid ["njuskalo-1"])
        (FileContent.valid ["njuskalo-1", "index-9"])
        (save_seen_ads true ["njuskalo-1", "index-9"]).obs ∧
      (save_seen_ads false ["njuskalo-1"]).raised = true ∧
      (save_seen_ads false ["njuskalo-1"]).errorLogged = false := by
  decide

/-- C8 (amended): the save truncates the file and rewrites it in place, so
for any prior content other than the empty file a reader can observe a state
that is neither old nor new; the write does complete with the new content
when no error occurs; a write failure raises out of the store (fatal for the
run) and the store logs nothing on failure. -/
theorem claim_C8_save_in_place (old : FileContent) (ids : List String)
    (h : old ≠ FileContent.corrupt "") :
    ¬ atomicForReaders old (FileContent.valid ids) (save_seen_ads true ids).obs ∧
      (save_seen_ads true ids).obs.getLast? = some (FileContent.valid ids) ∧
      ∀ ok : Bool, (save_seen_ads ok ids).errorLogged = false ∧
        (save_seen_ads ok ids).raised = !ok := by
  refine ⟨?_, rfl, ?_⟩
  · intro hat
    rcases hat (FileContent.corrupt "") (by simp [save_seen_ads]) with h1 | h2
    · exact h h1.symm
    · exact FileContent.noConfusion h2
  · intro ok
    cases ok <;> exact ⟨rfl, rfl⟩

/-- Witness for amended C8 at a concrete old and new state. -/
theorem claim_C8_save_in_place_witness :
    ¬ atomicForReaders (FileContent.valid ["index-9"])
        (FileContent.valid ["index-9", "njuskalo-1"])
        (save_seen_ads true ["index-9", "njuskalo-1"]).obs :=
  (claim_C8_save_in_place (FileContent.valid ["index-9"])
    ["index-9", "njuskalo-1"] (by decide)).1

/-- C10: loading with the state file absent writes an empty JSON array into
a fresh file before returning the empty list, so a run that finds no new
records (and thus never calls `save_seen_ads`) still leaves a file behind. -/
theorem claim_C10_load_creates_file :
    (load_seen_ads FileContent.absent).fs = FileContent.valid [] ∧
      (load_seen_ads FileContent.absent).ids = [] ∧
      (mainRun true (fun _ => false) [] [] FileContent.absent).fs =
        FileContent.valid [] ∧
      (mainRun true (fun _ => false) [] [] FileContent.absent).savedInvoked = false := by
  decide

/-- The price element feeds only the price field of an emitted record: the
per-item outcome for any price text is the outcome for an absent price with
the price field substituted. -/
theorem processNjuskaloItem_price (dh di : Option String) (te : Option TitleEl)
    (pt de : Option String) :
    processNjuskaloItem ⟨dh, di, te, pt, de⟩ =
      priceSubst
        (match pt with | some p => pyStrip p | none => "N/A")
        (processNjuskaloItem ⟨dh, di, te, none, de⟩) := by
  simp only [processNjuskaloItem]
  repeat' split <;> (try rfl) <;> (try simp_all [priceSubst])

/-- Index Oglasi anchor with no title sub-element but a present price. -/
def idxNoTitle : IndexItem :=
  { href := some "/oglasi/nekretnine/najam-stanova/oglas/123",
    titleText := none, priceText := some "550 €",
    locationText := some "Trešnjevka - jug" }

/-- Index Oglasi anchor with neither title nor price sub-element. -/
def idxNoTitleNoPrice : IndexItem :=
  { href := some "/oglasi/nekretnine/najam-stanova/oglas/123",
    titleText := none, priceText := none,
    locationText := some "Trešnjevka - jug" }

/-- Njuškalo container without a title anchor. -/
def njNoTitle : NjuskaloItem :=
  { dataHref := some "/nekretnine/stan-oglas-55", dataId := none,
    titleEl := none, priceText := some "500 €",
    descText := some "Trešnjevka" }

/-- Index Oglasi anchor missing title and price, used by the witness. -/
def idxBothMissing : IndexItem :=
  { href := some "/oglasi/nekretnine/najam-stanova/oglas/77",
    titleText := none, priceText := none,
    locationText := some "Trešnjevka" }

/-- C9 as stated is false for the Index Oglasi adapter: a container whose
title is not extractable is not skipped when its price is present — the
record is produced with the sentinel title — and a missing price does cause
a skip when the title is also missing. -/
theorem claim_C9_counterexample :
    processIndexItem idxNoTitle =
      ItemStep.emit
        { id := "index-123", title := "N/A", price := "550 €",
          link := "https://www.index.hr/oglasi/nekretnine/najam-stanova/oglas/123" } ∧
      processIndexItem idxNoTitleNoPrice = ItemStep.skip := by
  constructor <;> rfl

/-- C9 (amended): in the Njuškalo adapter, a container whose title or link
resolves to the sentinel is skipped, and the price element influences only
the price field of the emitted record — an absent price yields the sentinel
price and never turns an emitted record into a skip. In the Index Oglasi
adapter, a container is skipped when title and price are both missing, and a
container with a missing title can still emit a record, whose title is then
the sentinel. -/
theorem claim_C9_extraction_rules :
    (∀ it : NjuskaloItem,
        (it.titleEl = none ∨ ∃ t, it.titleEl = some t ∧
            (pyStrip t.text = "N/A" ∨ t.href = some "N/A")) →
          processNjuskaloItem it = ItemStep.skip) ∧
      (∀ it : NjuskaloItem, ∀ ad : Ad,
          processNjuskaloItem it = ItemStep.emit ad →
            ∃ ad2 : Ad,
              processNjuskaloItem
                  { it with priceText := none } = ItemStep.emit ad2 ∧
                ad2.price = "N/A" ∧ ad2.id = ad.id ∧ ad2.title = ad.title ∧
                ad2.link = ad.link) ∧
      (∀ it : IndexItem, it.titleText = none → it.priceText = none →
          processIndexItem it = ItemStep.skip) ∧
      (∀ it : IndexItem, ∀ ad : Ad, it.titleText = none →
          processIndexItem it = ItemStep.emit ad → ad.title = "N/A") := by
  refine ⟨?_, ?_, ?_, ?_⟩
  · rintro ⟨dh, di, te, pt, de⟩ h
    simp only at h
    rcases h with rfl | ⟨t, rfl, hts⟩
    · simp only [processNjuskaloItem]
      repeat' split
      all_goals first
      | rfl
      | (split <;> rfl)
      | simp_all
    · simp only [processNjuskaloItem]
      repeat' split
      all_goals first
      | rfl
      | (split <;> rfl)
      | simp_all
      | tauto
  · rintro ⟨dh, di, te, pt, de⟩ ad h
    have key := processNjuskaloItem_price dh di te pt de
    have keyN := processNjuskaloItem_price dh di te none de
    rcases e : processNjuskaloItem ⟨dh, di, te, none, de⟩ with _ | b | _
    · rw [e] at key
      simp only [priceSubst] at key
      exact ItemStep.noConfusion (h.symm.trans key)
    · rw [e] at key keyN
      simp only [priceSubst] at key keyN
      have had := ItemStep.emit.inj (h.symm.trans key)
      have hb : b = { b with price := "N/A" } := ItemStep.emit.inj keyN
      exact ⟨b, rfl, congrArg Ad.price hb, (congrArg Ad.id had).symm,
        (congrArg Ad.title had).symm, (congrArg Ad.link had).symm⟩
    · rw [e] at key
      simp only [priceSubst] at key
      exact ItemStep.noConfusion (h.symm.trans key)
  · rintro ⟨hr, tt, pt, lt⟩ h1 h2
    simp only at h1 h2
    subst h1
    subst h2
    simp only [processIndexItem]
    repeat' split
    all_goals first
    | rfl
    | (split <;> rfl)
    | simp_all
  · rintro ⟨hr, tt, pt, lt⟩ ad h1 h
    simp only at h1
    subst h1
    simp only [processIndexItem] at h
    repeat' split at h
    all_goals first
    | exact ItemStep.noConfusion h
    | exact (congrArg Ad.title (ItemStep.emit.inj h)).symm
    | exact (congrArg Ad.title h).symm
    | simp_all

/-- Witness for amended C9: a Njuškalo container without a title anchor is
skipped, and an Index Oglasi anchor missing both title and price is
skipped. -/
theorem claim_C9_extraction_rules_witness :
    processNjuskaloItem njNoTitle = ItemStep.skip ∧
      processIndexItem idxBothMissing = ItemStep.skip :=
  ⟨claim_C9_extraction_rules.1 njNoTitle (Or.inl rfl),
    claim_C9_extraction_rules.2.2.1 idxBothMissing rfl rfl⟩

end FlatCrawler
